import Mathlib

/-!
Verification of the Pong reinforcement-learning notebook
(examples/notebooks/pong.ipynb).

The notebook defines:
* `PongEnv`, a subclass of the library class `GymEnvironment`, overriding
  the `state` property (crop / subsample / channel-sum / threshold of the
  stored raw frame) and `__deepcopy__` (which returns a freshly constructed
  `PongEnv()`);
* `PongPolicy.create_layers`, building a small network and returning a
  dict with keys "action_prob" and "value";
* `render_env`, a try/except-print wrapper around `env.env.render()`;
* a playback loop running until 120 wall-clock seconds have elapsed.

Raw frames are modelled as nested lists of natural numbers
(rows x columns x channels, uint8 channel values), grids as nested lists
(rows x columns).
-/

/-- One pixel: the list of its colour-channel values. -/
abbrev Px := List Nat

/-- A raw frame: rows of pixels. -/
abbrev Frame := List (List Px)

/-- A 2-d numeric grid. -/
abbrev Grid := List (List Nat)

/-- The Python slice `l[34:194]` (numpy row crop in `PongEnv.state`). -/
def sliceCrop (l : List α) : List α := (l.drop 34).take 160

/-- Elements at indices 0, 2, 4, ... of a list. -/
def everySecond : List α → List α
  | [] => []
  | [a] => [a]
  | a :: _ :: rest => a :: everySecond rest

/-- The Python slice `l[0:-1:2]`: indices 0, 2, 4, ... strictly below
`l.length - 1`. -/
def sliceHalf (l : List α) : List α := everySecond l.dropLast

/-- The numpy boolean-mask assignment `bw[grayscale != 233] = 1`:
elementwise, an entry of `bw` is replaced by 1 wherever the matching
entry of `grayscale` differs from 233. -/
def maskSetOne (bw grayscale : Grid) : Grid :=
  List.zipWith
    (fun brow grow => List.zipWith (fun b g => if g = 233 then b else 1) brow grow)
    bw grayscale

/-- The body of the `PongEnv.state` property, as a function of the stored
raw frame `self._state`:

    cropped = np.array(self._state)[34:194, :, :]
    reduced = cropped[0:-1:2, 0:-1:2]
    grayscale = np.sum(reduced, axis=2)
    bw = np.zeros(grayscale.shape)
    bw[grayscale != 233] = 1
    return bw
-/
def pongStateOfFrame (frame : Frame) : Grid :=
  let cropped := sliceCrop frame
  let reduced := (sliceHalf cropped).map (fun row => sliceHalf row)
  let grayscale := reduced.map (fun row => row.map List.sum)
  let bw0 := grayscale.map (fun row => row.map (fun _ => (0 : Nat)))
  maskSetOne bw0 grayscale

/-- The grayscale intermediate of `PongEnv.state`: the channel sums after
cropping and subsampling (`np.sum(reduced, axis=2)`). -/
def grayGrid (frame : Frame) : Grid :=
  ((sliceHalf (sliceCrop frame)).map (fun row => sliceHalf row)).map
    (fun row => row.map List.sum)

/-- A `PongEnv` instance: the stored raw frame `self._state` (owned by the
library superclass `GymEnvironment`) and the declared observation shape
`self._state_shape` set in `PongEnv.__init__`. -/
structure PongEnv where
  _state : Frame
  _state_shape : Nat × Nat

/-- The `PongEnv.state` property. -/
def PongEnv.state (e : PongEnv) : Grid := pongStateOfFrame e._state

/-- Modelled from the spec: `PongEnv.__init__` calls
`GymEnvironment.__init__('Pong-v0')` — library code not present in this
artifact, which constructs a fresh Pong simulation whose initial raw frame
`f0` is supplied by the external library — and then sets
`self._state_shape = (80, 80)`. -/
def PongEnv.mkNew (f0 : Frame) : PongEnv :=
  { _state := f0, _state_shape := (80, 80) }

/-- `PongEnv.__deepcopy__(self, memo)` returns `PongEnv()`: a freshly
constructed environment, ignoring both `self` and `memo`.  The fresh
construction receives its initial raw frame `f0` from the external
library, as in `PongEnv.mkNew`. -/
def PongEnv.deepcopy {M : Type} (_e : PongEnv) (_memo : M) (f0 : Frame) : PongEnv :=
  PongEnv.mkNew f0

/-- Modelled from the spec: the library step/reset operations advance the
external simulation, replacing the stored raw frame; they do not touch the
declared state shape (the environment interface exposes a step function,
a reset function, and the state accessor; all frame mutation is owned by
the external library). -/
def PongEnv.setFrame (e : PongEnv) (f : Frame) : PongEnv :=
  { e with _state := f }

/-- The environments reachable during a run: a fresh construction, or the
result of a library frame update (step/reset), or a deepcopy of a
reachable environment. -/
inductive PongEnv.Reachable : PongEnv → Prop
  | new (f0 : Frame) : PongEnv.Reachable (PongEnv.mkNew f0)
  | frameUpdate (e : PongEnv) (f : Frame) :
      PongEnv.Reachable e → PongEnv.Reachable (e.setFrame f)
  | copy {M : Type} (e : PongEnv) (memo : M) (f0 : Frame) :
      PongEnv.Reachable e → PongEnv.Reachable (e.deepcopy memo f0)

/-- A frame of the expected source resolution: 210 rows, 160 columns,
3 colour channels. -/
def HasFrameShape (f : Frame) : Prop :=
  f.length = 210 ∧ ∀ row ∈ f, row.length = 160 ∧ ∀ px ∈ row, px.length = 3

/-- A grid of shape `r` x `c`. -/
def HasGridShape (g : Grid) (r c : Nat) : Prop :=
  g.length = r ∧ ∀ row ∈ g, row.length = c

/- ## Basic facts about the slicing helpers -/

theorem everySecond_length (l : List α) :
    (everySecond l).length = (l.length + 1) / 2 := by
  induction l using everySecond.induct with
  | case1 => simp [everySecond]
  | case2 a => simp [everySecond]
  | case3 a b rest ih => simp [everySecond, ih]; omega

theorem everySecond_getElem (l : List α) (i : Nat)
    (h : 2 * i < l.length) :
    (everySecond l)[i]? = l[2 * i]? := by
  induction l using everySecond.induct generalizing i with
  | case1 => simp at h
  | case2 a =>
    simp only [List.length_cons, List.length_nil] at h
    have hi : i = 0 := by omega
    subst hi
    simp [everySecond]
  | case3 a b rest ih =>
    cases i with
    | zero => simp [everySecond]
    | succ j =>
      simp only [List.length_cons] at h
      have hj : 2 * j < rest.length := by omega
      have h2 : 2 * (j + 1) = 2 * j + 1 + 1 := by omega
      simp only [everySecond, h2, List.getElem?_cons_succ]
      exact ih j hj

theorem sliceHalf_length (l : List α) :
    (sliceHalf l).length = l.length / 2 := by
  simp only [sliceHalf, everySecond_length, List.length_dropLast]
  omega

theorem sliceHalf_getElem (l : List α) (i : Nat)
    (h : 2 * i < l.length - 1) :
    (sliceHalf l)[i]? = l[2 * i]? := by
  have h1 : 2 * i < l.dropLast.length := by
    simp only [List.length_dropLast]; omega
  have h2 : 2 * i < l.length := by omega
  simp only [sliceHalf, everySecond_getElem l.dropLast i h1]
  rw [List.getElem?_eq_getElem h1, List.getElem?_eq_getElem h2,
    List.getElem_dropLast]

theorem sliceCrop_length (l : List α) (h : l.length = 210) :
    (sliceCrop l).length = 160 := by
  simp [sliceCrop, h]

theorem sliceCrop_getElem (l : List α) (k : Nat) (hk : k < 160)
    (h : l.length = 210) :
    (sliceCrop l)[k]? = l[34 + k]? := by
  have h1 : k < (sliceCrop l).length := by rw [sliceCrop_length l h]; exact hk
  have h2 : 34 + k < l.length := by omega
  rw [List.getElem?_eq_getElem h1, List.getElem?_eq_getElem h2]
  simp only [sliceCrop]
  rw [List.getElem_take, List.getElem_drop]

/- ## The threshold characterization of the state property -/

/-- The zeros-then-mask-assign sequence is pointwise thresholding. -/
theorem maskSetOne_zeros (g : Grid) :
    maskSetOne (g.map (fun row => row.map (fun _ => (0 : Nat)))) g =
      g.map (fun row => row.map (fun v => if v = 233 then 0 else 1)) := by
  induction g with
  | nil => rfl
  | cons row rest ih =>
    simp only [List.map_cons, maskSetOne, List.zipWith_cons_cons] at *
    refine congrArg₂ _ ?_ ih
    induction row with
    | nil => rfl
    | cons v vs ihv => simpa using ihv

theorem pongStateOfFrame_eq_map (frame : Frame) :
    pongStateOfFrame frame =
      (grayGrid frame).map (fun row => row.map (fun v => if v = 233 then 0 else 1)) := by
  simp only [pongStateOfFrame, grayGrid]
  exact maskSetOne_zeros _

theorem everySecond_mem {x : α} {l : List α} (h : x ∈ everySecond l) :
    x ∈ l := by
  induction l using everySecond.induct with
  | case1 => simp [everySecond] at h
  | case2 a => simpa [everySecond] using h
  | case3 a b rest ih =>
    simp only [everySecond, List.mem_cons] at h ⊢
    rcases h with h | h
    · exact Or.inl h
    · exact Or.inr (Or.inr (ih h))

theorem sliceHalf_mem {x : α} {l : List α} (h : x ∈ sliceHalf l) : x ∈ l :=
  (List.dropLast_sublist l).subset (everySecond_mem h)

theorem sliceCrop_mem {x : α} {l : List α} (h : x ∈ sliceCrop l) : x ∈ l :=
  List.drop_subset 34 l (List.take_subset 160 _ h)

theorem grayGrid_shape (frame : Frame) (h : HasFrameShape frame) :
    HasGridShape (grayGrid frame) 80 80 := by
  obtain ⟨hlen, hrow⟩ := h
  constructor
  · simp only [grayGrid, List.length_map, sliceHalf_length,
      sliceCrop_length frame hlen]
  · intro row hmem
    simp only [grayGrid, List.mem_map] at hmem
    obtain ⟨r1, ⟨r0, hr0, hr0eq⟩, hr1eq⟩ := hmem
    have hr0mem : r0 ∈ frame := sliceCrop_mem (sliceHalf_mem hr0)
    have h160 : r0.length = 160 := (hrow r0 hr0mem).1
    subst hr1eq hr0eq
    simp only [List.length_map, sliceHalf_length, h160]

theorem pongStateOfFrame_shape (frame : Frame) (h : HasFrameShape frame) :
    HasGridShape (pongStateOfFrame frame) 80 80 := by
  obtain ⟨h1, h2⟩ := grayGrid_shape frame h
  rw [pongStateOfFrame_eq_map]
  constructor
  · simpa using h1
  · intro row hmem
    obtain ⟨r, hr, hreq⟩ := List.mem_map.mp hmem
    subst hreq
    simpa using h2 r hr

/- ## Cell accessors and the elementwise characterization -/

/-- The cell of a grid at row `i`, column `j` (None when out of range). -/
def gridCell (g : Grid) (i j : Nat) : Option Nat :=
  g[i]?.bind (fun row => row[j]?)

/-- The pixel of a raw frame at row `r`, column `c` (None when out of
range). -/
def frameCell (f : Frame) (r c : Nat) : Option Px :=
  f[r]?.bind (fun row => row[c]?)

/-- Named pipeline steps of `PongEnv.state`, in source order. -/
def cropStep (f : Frame) : Frame := sliceCrop f

def subsampleStep (f : Frame) : Frame :=
  (sliceHalf f).map (fun row => sliceHalf row)

def channelSumStep (f : Frame) : Grid :=
  f.map (fun row => row.map List.sum)

def thresholdStep (g : Grid) : Grid :=
  maskSetOne (g.map (fun row => row.map (fun _ => (0 : Nat)))) g

theorem gridCell_map_map (g : Grid) (f : Nat → Nat) (i j : Nat) :
    gridCell (g.map (fun row => row.map f)) i j = (gridCell g i j).map f := by
  simp only [gridCell, List.getElem?_map]
  cases g[i]? with
  | none => rfl
  | some row => simp [List.getElem?_map]


theorem grayGrid_cell (frame : Frame) (h : HasFrameShape frame)
    (i j : Nat) (hi : i < 80) (hj : j < 80) :
    gridCell (grayGrid frame) i j =
      (frameCell frame (34 + 2 * i) (2 * j)).map List.sum := by
  obtain ⟨hlen, hrow⟩ := h
  have h3 : 34 + 2 * i < frame.length := by omega
  have hA : (sliceHalf (sliceCrop frame))[i]? = some (frame[34 + 2 * i]) := by
    rw [sliceHalf_getElem _ _ (by rw [sliceCrop_length frame hlen]; omega),
      sliceCrop_getElem frame (2 * i) (by omega) hlen,
      List.getElem?_eq_getElem h3]
  have hmem : frame[34 + 2 * i] ∈ frame := List.getElem_mem h3
  have hlen0 : (frame[34 + 2 * i]).length = 160 := (hrow _ hmem).1
  have hgray : (grayGrid frame)[i]? =
      some ((sliceHalf (frame[34 + 2 * i])).map List.sum) := by
    simp [grayGrid, hA]
  have hinner : (sliceHalf (frame[34 + 2 * i]))[j]? =
      (frame[34 + 2 * i])[2 * j]? := by
    apply sliceHalf_getElem
    omega
  simp [gridCell, frameCell, hgray, List.getElem?_eq_getElem h3, hinner]

/-- Claim C1: for every reachable `PongEnv` whose stored raw frame has the
expected source resolution (210 x 160 x 3), the `state` accessor returns a
grid of shape exactly 80 x 80, and the declared shape `_state_shape`
equals `(80, 80)` throughout the environment's lifetime. -/
theorem claim_C1_state_shape (e : PongEnv) (hr : PongEnv.Reachable e) :
    (HasFrameShape e._state → HasGridShape e.state 80 80) ∧
      e._state_shape = (80, 80) := by
  constructor
  · intro h
    exact pongStateOfFrame_shape e._state h
  · induction hr with
    | new f0 => rfl
    | frameUpdate e f _ ih => exact ih
    | copy e memo f0 _ _ => rfl

theorem claim_C1_witness :
    PongEnv.Reachable (PongEnv.mkNew []) ∧
      ((PongEnv.mkNew [])._state_shape = (80, 80)) :=
  ⟨PongEnv.Reachable.new [], (claim_C1_state_shape (PongEnv.mkNew [])
    (PongEnv.Reachable.new [])).2⟩

/-- Claim C2: for every raw frame of the expected source resolution, every
cell of the grid returned by the `state` property is 0 or 1, and a cell is
1 exactly when the corresponding pre-threshold grayscale value (the
channel sum after cropping and subsampling) differs from the background
constant 233. -/
theorem claim_C2_binary_cells (frame : Frame) (_h : HasFrameShape frame) :
    (∀ row ∈ pongStateOfFrame frame, ∀ v ∈ row, v = 0 ∨ v = 1) ∧
      (∀ i j, i < 80 → j < 80 → ∀ b g,
        gridCell (pongStateOfFrame frame) i j = some b →
        gridCell (grayGrid frame) i j = some g →
        (b = 1 ↔ g ≠ 233)) := by
  constructor
  · intro row hmem v hv
    rw [pongStateOfFrame_eq_map] at hmem
    obtain ⟨r, _, hreq⟩ := List.mem_map.mp hmem
    subst hreq
    obtain ⟨x, _, hxeq⟩ := List.mem_map.mp hv
    subst hxeq
    by_cases hx : x = 233
    · left
      simp [hx]
    · right
      simp [hx]
  · intro i j hi hj b g hb hg
    rw [pongStateOfFrame_eq_map, gridCell_map_map, hg] at hb
    have hb2 : (if g = 233 then (0 : Nat) else 1) = b := by injection hb
    subst hb2
    by_cases hx : g = 233
    · simp [hx]
    · simp [hx]

/-- An all-zero frame of the expected source resolution, used to witness
the shape hypotheses. -/
def testFrame : Frame :=
  List.replicate 210 (List.replicate 160 (List.replicate 3 0))

theorem testFrame_shape : HasFrameShape testFrame := by
  refine ⟨by rw [testFrame, List.length_replicate], ?_⟩
  intro row hrow
  rw [List.eq_of_mem_replicate hrow]
  refine ⟨by rw [List.length_replicate], ?_⟩
  intro px hpx
  rw [List.eq_of_mem_replicate hpx]
  rw [List.length_replicate]

theorem claim_C2_witness :
    HasFrameShape testFrame ∧
      (∀ row ∈ pongStateOfFrame testFrame, ∀ v ∈ row, v = 0 ∨ v = 1) :=
  ⟨testFrame_shape, (claim_C2_binary_cells testFrame testFrame_shape).1⟩

/-- Claim C3: `PongEnv.state` computes exactly the composition, in source
order, of: crop to rows 34 through 193, subsample every second row and
every second column (the slice 0:-1:2), sum over the colour-channel axis,
and threshold against the background constant 233; elementwise, cell
(i, j) of the output is the thresholded channel sum of source pixel
(34 + 2i, 2j). -/
theorem claim_C3_pipeline (frame : Frame) (h : HasFrameShape frame) :
    pongStateOfFrame frame =
      thresholdStep (channelSumStep (subsampleStep (cropStep frame))) ∧
      ∀ i j, i < 80 → j < 80 →
        ∃ px, frameCell frame (34 + 2 * i) (2 * j) = some px ∧
          gridCell (pongStateOfFrame frame) i j =
            some (if px.sum = 233 then 0 else 1) := by
  refine ⟨rfl, ?_⟩
  intro i j hi hj
  have hlen := h.1
  have h3 : 34 + 2 * i < frame.length := by omega
  have hmem : frame[34 + 2 * i] ∈ frame := List.getElem_mem h3
  have hlen0 : (frame[34 + 2 * i]).length = 160 := (h.2 _ hmem).1
  have h4 : 2 * j < (frame[34 + 2 * i]).length := by omega
  have hcell : frameCell frame (34 + 2 * i) (2 * j) =
      some ((frame[34 + 2 * i])[2 * j]) := by
    simp [frameCell, List.getElem?_eq_getElem h3, List.getElem?_eq_getElem h4]
  refine ⟨(frame[34 + 2 * i])[2 * j], hcell, ?_⟩
  rw [pongStateOfFrame_eq_map, gridCell_map_map,
    grayGrid_cell frame h i j hi hj, hcell]
  rfl

theorem claim_C3_witness :
    HasFrameShape testFrame ∧
      pongStateOfFrame testFrame =
        thresholdStep (channelSumStep (subsampleStep (cropStep testFrame))) :=
  ⟨testFrame_shape, (claim_C3_pipeline testFrame testFrame_shape).1⟩

/-- Claim C4: the observation-preprocessing transform is deterministic:
any two evaluations of the `state` property over the same stored raw
frame produce elementwise-equal grids. -/
theorem claim_C4_deterministic (e1 e2 : PongEnv)
    (h : e1._state = e2._state) : e1.state = e2.state := by
  simp only [PongEnv.state, h]

theorem claim_C4_witness :
    (PongEnv.mkNew testFrame)._state = (PongEnv.mkNew testFrame)._state ∧
      (PongEnv.mkNew testFrame).state = (PongEnv.mkNew testFrame).state :=
  ⟨rfl, claim_C4_deterministic (PongEnv.mkNew testFrame)
    (PongEnv.mkNew testFrame) rfl⟩

/-- Claim C5: duplicating an environment via `__deepcopy__` yields a
freshly constructed instance: it satisfies the shape contract
(`_state_shape = (80, 80)`), it equals the fresh construction
`PongEnv.mkNew f0` (none of its state is taken from the original), and it
is independent of the original, so the two instances share no mutable
state. -/
theorem claim_C5_deepcopy_fresh {M : Type} (e : PongEnv) (memo : M)
    (f0 : Frame) :
    (e.deepcopy memo f0)._state_shape = (80, 80) ∧
      e.deepcopy memo f0 = PongEnv.mkNew f0 ∧
      ∀ e2 : PongEnv, e.deepcopy memo f0 = e2.deepcopy memo f0 :=
  ⟨rfl, rfl, fun _ => rfl⟩

/-- Claim C10: `__deepcopy__` is independent of both the memo argument and
the original environment's current game progress: any two originals with
any two memos yield the same result, namely the freshly constructed
initial-state environment, not a snapshot of the original's current
state. -/
theorem claim_C10_deepcopy_independent {M1 M2 : Type} (e1 e2 : PongEnv)
    (m1 : M1) (m2 : M2) (f0 : Frame) :
    e1.deepcopy m1 f0 = e2.deepcopy m2 f0 ∧
      e1.deepcopy m1 f0 = PongEnv.mkNew f0 :=
  ⟨rfl, rfl⟩

/-- The property read `env.state` with explicit allocation: `np.zeros`
allocates a fresh output array on every call, modelled by an allocation
counter `ctr` tagging the produced grid with the id of its freshly
allocated array. The getter assigns no attribute of `self`, so the
environment after the read is returned unchanged. -/
def PongEnv.stateRead (e : PongEnv) (ctr : Nat) :
    (Grid × Nat) × PongEnv × Nat :=
  ((pongStateOfFrame e._state, ctr), e, ctr + 1)

/-- Claim C9: reading the `state` property has no side effect on the
environment — the stored raw frame and the declared shape are unchanged —
and two consecutive reads without an intervening step return elementwise
equal grids held in distinct freshly allocated arrays. -/
theorem claim_C9_read_pure (e : PongEnv) (ctr : Nat) :
    ((e.stateRead ctr).2.1 = e) ∧
      (((e.stateRead ctr).2.1.stateRead (e.stateRead ctr).2.2).2.1 = e) ∧
      ((e.stateRead ctr).1.1 =
        ((e.stateRead ctr).2.1.stateRead (e.stateRead ctr).2.2).1.1) ∧
      ((e.stateRead ctr).1.2 ≠
        ((e.stateRead ctr).2.1.stateRead (e.stateRead ctr).2.2).1.2) := by
  refine ⟨rfl, rfl, rfl, ?_⟩
  simp [PongEnv.stateRead]

/- ## render_env, the policy layers, and the playback loop -/

/-- The `render_env(env)` function: wraps the call `env.env.render()` in
try/except, printing the caught exception.  The outcome `r` of the
underlying render call is supplied by the external display backend; the
result is the list of lines printed, wrapped in `Except.ok` because
`render_env` itself returns normally in both branches. -/
def render_env (r : Except String Unit) : Except String (List String) :=
  match r with
  | Except.ok _ => Except.ok []
  | Except.error e => Except.ok [e]

/-- Claim C6: `render_env` never propagates an exception — for every
outcome of the underlying render call it returns normally — and whenever
the render call raises, the exception is printed, so a display-backend
failure does not interrupt the playback loop. -/
theorem claim_C6_render_catches (r : Except String Unit) :
    (∃ printed, render_env r = Except.ok printed) ∧
      ∀ e, r = Except.error e → render_env r = Except.ok [e] := by
  cases r with
  | ok u => exact ⟨⟨[], rfl⟩, fun e h => by cases h⟩
  | error e => exact ⟨⟨[e], rfl⟩, fun e2 h => by cases h; rfl⟩

theorem claim_C6_witness :
    render_env (Except.error "no display") = Except.ok ["no display"] :=
  (claim_C6_render_catches (Except.error "no display")).2 "no display" rfl

/-- Activation functions appearing in `PongPolicy.create_layers`;
`defaultLinear` stands for the library default (no `activation_fn`
argument passed). -/
inductive Activation where
  | softmax
  | relu
  | defaultLinear
deriving DecidableEq

/-- The layer objects built by `PongPolicy.create_layers`, one constructor
per layer class used, with the constructor arguments passed in the
notebook. -/
inductive Layer where
  | input : Layer
  | Conv2D (num_outputs : Nat) (in_layers : Layer) (kernel_size stride : Nat) : Layer
  | Dense (out_channels : Nat) (in_layers : Layer) (activation_fn : Activation) : Layer
  | Flatten (in_layers : Layer) : Layer
  | GRU (n_hidden batch_size : Nat) (in_layers : Layer) : Layer
  | Reshape (shape : List Int) (in_layers : Layer) : Layer
  | Concat (in_layers : List Layer) : Layer

/-- `PongPolicy.create_layers(self, state, **kwargs)`, as a function of
the environment's action count `n_actions` (the notebook reads
`env.n_actions` from the enclosing scope) and the state input layer. -/
def create_layers (n_actions : Nat) (state : Layer) : List (String × Layer) :=
  let conv1 := Layer.Conv2D 16 state 8 4
  let conv2 := Layer.Conv2D 32 conv1 4 2
  let dense := Layer.Dense 256 (Layer.Flatten conv2) Activation.relu
  let gru := Layer.GRU 16 1 (Layer.Reshape [1, -1, 256] dense)
  let concat := Layer.Concat [dense, Layer.Reshape [-1, 16] gru]
  let action_prob := Layer.Dense n_actions concat Activation.softmax
  let value := Layer.Dense 1 concat Activation.defaultLinear
  [("action_prob", action_prob), ("value", value)]

/-- Claim C7: for every state input, `create_layers` returns a mapping
whose keys are exactly "action_prob" and "value"; "action_prob" is bound
to a softmax dense output layer over the environment's action count and
"value" to a one-channel (scalar) dense output layer, both reading the
same concatenated features. -/
theorem claim_C7_create_layers (n_actions : Nat) (state : Layer) :
    ((create_layers n_actions state).map Prod.fst = ["action_prob", "value"]) ∧
      ∃ feats,
        (create_layers n_actions state).lookup "action_prob" =
          some (Layer.Dense n_actions feats Activation.softmax) ∧
        (create_layers n_actions state).lookup "value" =
          some (Layer.Dense 1 feats Activation.defaultLinear) :=
  ⟨rfl, ⟨_, rfl, rfl⟩⟩

/-- The playback loop

    start = datetime.now()
    while (datetime.now() - start).total_seconds() < 120:
        render_env(env)
        env.step(a3c.select_action(env.state))

`elapsed n` is the value of `(datetime.now() - start).total_seconds()` at
the n-th evaluation of the loop condition.  `stepEnv` abstracts the loop
body's effect on the environment (`env.step(a3c.select_action(env.state))`
is carried out by the external library).  The loop is run with explicit
fuel; `none` means the fuel ran out before the condition failed, and
`some (n, e)` means the loop exited at condition check `n` with final
environment `e`. -/
def playbackLoop (elapsed : Nat → ℚ) (stepEnv : PongEnv → PongEnv) :
    Nat → Nat → PongEnv → Option (Nat × PongEnv)
  | 0, _, _ => none
  | fuel + 1, n, e =>
    if elapsed n < 120 then playbackLoop elapsed stepEnv fuel (n + 1) (stepEnv e)
    else some (n, e)

theorem playbackLoop_exits (elapsed : Nat → ℚ) (stepEnv : PongEnv → PongEnv)
    (n0 : Nat) (h0 : 120 ≤ elapsed n0) (hmin : ∀ m < n0, elapsed m < 120) :
    ∀ (k n : Nat) (e : PongEnv), n + k = n0 →
      playbackLoop elapsed stepEnv (k + 1) n e = some (n0, stepEnv^[k] e) := by
  intro k
  induction k with
  | zero =>
    intro n e hn
    have hn0 : n = n0 := by omega
    subst hn0
    simp only [playbackLoop, if_neg (not_lt.mpr h0), Function.iterate_zero_apply]
  | succ k ih =>
    intro n e hn
    have hlt : n < n0 := by omega
    have hcond : elapsed n < 120 := hmin n hlt
    rw [playbackLoop, if_pos hcond]
    have hstep := ih (n + 1) (stepEnv e) (by omega)
    rw [hstep, Function.iterate_succ_apply]

/-- Claim C8: assuming the wall clock advances without bound, the playback
loop terminates, and it exits exactly at the first condition check at
which at least 120 seconds have elapsed since the recorded start time;
until that check every reading was below 120 seconds. -/
theorem claim_C8_loop_terminates (elapsed : Nat → ℚ)
    (stepEnv : PongEnv → PongEnv) (e0 : PongEnv)
    (h : ∀ B : ℚ, ∃ n, B ≤ elapsed n) :
    ∃ fuel res, playbackLoop elapsed stepEnv fuel 0 e0 = some res ∧
      120 ≤ elapsed res.1 ∧ ∀ m < res.1, elapsed m < 120 := by
  have hex : ∃ n, 120 ≤ elapsed n := h 120
  classical
  have h0 : 120 ≤ elapsed (Nat.find hex) := Nat.find_spec hex
  have hmin : ∀ m < Nat.find hex, elapsed m < 120 := by
    intro m hm
    have := Nat.find_min hex hm
    exact lt_of_not_ge this
  refine ⟨Nat.find hex + 1, (Nat.find hex, stepEnv^[Nat.find hex] e0), ?_, h0, hmin⟩
  exact playbackLoop_exits elapsed stepEnv (Nat.find hex) h0 hmin
    (Nat.find hex) 0 e0 (by omega)

theorem claim_C8_witness :
    (∀ B : ℚ, ∃ n : Nat, B ≤ (n : ℚ)) ∧
      ∃ fuel res,
        playbackLoop (fun n => (n : ℚ)) id fuel 0 (PongEnv.mkNew []) = some res ∧
          120 ≤ ((res.1 : Nat) : ℚ) ∧ ∀ m < res.1, ((m : Nat) : ℚ) < 120 :=
  ⟨fun B => exists_nat_ge B,
    claim_C8_loop_terminates (fun n => (n : ℚ)) id (PongEnv.mkNew [])
      (fun B => exists_nat_ge B)⟩
